import Mathlib

/-!
Verification of the HyperFTP transfer-and-session engine (src/HyperFTP.py)
against its natural-language specification.

The Python source is shallowly embedded below.  String-level parsing is done
on `List Char` with structurally recursive primitives so that every concrete
listing can be evaluated inside the kernel.  Display-layer formatting that the
spec explicitly excludes from the core (human-readable byte-size strings and
timestamp re-rendering) is abstracted: sizes are kept as the integer parsed
from the listing and modification stamps as the raw token text, which is the
information the listing parser itself extracts.
-/

deriving instance DecidableEq for Except

namespace HyperFTP

/-! ### String primitives mirroring the Python built-ins used by the source -/

/-- Splitting helper: cut a character list at every whitespace character,
producing the (possibly empty) runs between separators. -/
def splitRuns (cur : List Char) : List Char → List (List Char)
  | [] => [cur.reverse]
  | c :: cs =>
    if c.isWhitespace then cur.reverse :: splitRuns [] cs
    else splitRuns (c :: cur) cs

/-- Python's `str.split()` with no separator: split on whitespace runs and
drop empty fields. -/
def pySplit (s : String) : List String :=
  ((splitRuns [] s.data).filter (· ≠ [])).map (fun cs => ⟨cs⟩)

/-- Decimal digit accumulation for `pyInt?`. -/
def digitsToNat : Nat → List Char → Option Nat
  | acc, [] => some acc
  | acc, c :: cs => if c.isDigit then digitsToNat (acc * 10 + (c.toNat - 48)) cs else none

/-- Python's `int(s)` on a whitespace-free token: an optional sign followed by
at least one decimal digit; anything else raises `ValueError`, modelled as
`none`. -/
def pyInt? (s : String) : Option Int :=
  match s.data with
  | '-' :: rest => if rest = [] then none else (digitsToNat 0 rest).map (fun n => -(n : Int))
  | '+' :: rest => if rest = [] then none else (digitsToNat 0 rest).map (fun n => (n : Int))
  | l => if l = [] then none else (digitsToNat 0 l).map (fun n => (n : Int))

/-- Python's `str.startswith(c)` for a single character. -/
def pyStartsWith (s : String) (c : Char) : Bool :=
  match s.data with
  | [] => false
  | a :: _ => a = c

/-- Python's `sep.join(parts)` for a single-character separator. -/
def pyJoin (sep : Char) : List String → List Char
  | [] => []
  | [s] => s.data
  | s :: rest => s.data ++ sep :: pyJoin sep rest

/-- Python's `str.strip()`: drop leading and trailing whitespace. -/
def pyStrip (s : String) : String :=
  ⟨((s.data.dropWhile Char.isWhitespace).reverse.dropWhile Char.isWhitespace).reverse⟩

/-! ### Data model: one entry of a remote directory listing

From `refresh_remote_files` (src/HyperFTP.py:772-812): each produced entry
records whether it is a directory, its name, the byte size parsed from the
listing (`none` for directories, whose size column is left blank), and the raw
modification text extracted from the listing. -/

structure RemoteItem where
  isDir : Bool
  name : String
  size : Option Int
  modified : String
  deriving DecidableEq, Repr

/-! ### The structured (MLSD) parser, src/HyperFTP.py:776-792 -/

/-- Lookup of one fact in an MLSD facts mapping (`facts.get(k)`). -/
def factGet (facts : List (String × String)) (k : String) : Option String :=
  match facts with
  | [] => none
  | (k2, v) :: rest => if k2 = k then some v else factGet rest k

/-- Parse one MLSD entry: `is_dir = facts.get('type') == 'dir'`; for files the
size is `int(facts.get('size', 0))`, whose failure (`none`) aborts the MLSD
loop; `modify` defaults to the empty string. -/
def mlsdEntryItem (ename : String) (facts : List (String × String)) : Option RemoteItem :=
  let isDir := factGet facts "type" = some "dir"
  if isDir then
    some { isDir := true, name := ename, size := none, modified := (factGet facts "modify").getD "" }
  else
    match factGet facts "size" with
    | none => some { isDir := false, name := ename, size := some 0, modified := (factGet facts "modify").getD "" }
    | some s =>
      match pyInt? s with
      | none => none
      | some n => some { isDir := false, name := ename, size := some n, modified := (factGet facts "modify").getD "" }

/-- Run the MLSD loop over the reply entries.  Entries named `.` or `..` are
skipped (`continue`); a `ValueError` from the size conversion raises out of
the loop, which the source's bare `except:` turns into the LIST fallback.  The
result is the list of items appended before any abort, together with an abort
flag. -/
def mlsdFold : List (String × List (String × String)) → List RemoteItem × Bool
  | [] => ([], false)
  | (ename, facts) :: rest =>
    if ename = "." ∨ ename = ".." then mlsdFold rest
    else
      match mlsdEntryItem ename facts with
      | none => ([], true)
      | some it =>
        let r := mlsdFold rest
        (it :: r.1, r.2)

/-! ### The legacy (LIST) parser, src/HyperFTP.py:794-805 -/

/-- Outcome of processing one LIST line. -/
inductive LineResult where
  | skipped
  | parsed (it : RemoteItem)
  | aborted
  deriving DecidableEq, Repr

/-- Process one LIST line: `parts = line.split()`; lines with fewer than nine
tokens are skipped; `d`-prefixed lines are directories; the name is
`' '.join(parts[8:])`, the modification text `' '.join(parts[5:8])`; for
non-directory lines `int(parts[4])` is the size, and its `ValueError` raises
out of the loop (`aborted`). -/
def listLine (line : String) : LineResult :=
  let parts := pySplit line
  if 9 ≤ parts.length then
    let isDir := pyStartsWith line 'd'
    let lname : String := ⟨pyJoin ' ' (parts.drop 8)⟩
    let modified : String := ⟨pyJoin ' ' ((parts.drop 5).take 3)⟩
    if isDir then .parsed { isDir := true, name := lname, size := none, modified := modified }
    else
      match pyInt? (parts.getD 4 "") with
      | none => .aborted
      | some n => .parsed { isDir := false, name := lname, size := some n, modified := modified }
  else .skipped

/-- Run the LIST loop over all reply lines.  A raised `ValueError` propagates
to the outer handler of `refresh_remote_files`, so an abort discards the
whole listing (`Except.error`). -/
def legacyFold : List String → Except Unit (List RemoteItem)
  | [] => .ok []
  | line :: rest =>
    match listLine line with
    | .skipped => legacyFold rest
    | .aborted => .error ()
    | .parsed it =>
      match legacyFold rest with
      | .error e => .error e
      | .ok l => .ok (it :: l)

/-- The per-line parse result as an optional item (used to state which lines
contribute entries). -/
def legacyLineItem? (line : String) : Option RemoteItem :=
  match listLine line with
  | .parsed it => some it
  | _ => none

/-! ### The sort contract, src/HyperFTP.py:807-808
`items.sort(key=lambda x: (not x[0], x[1].lower()))` -/

/-- Lexicographic comparison of two character lists by code point, exactly as
Python compares strings. -/
def charListLe : List Char → List Char → Bool
  | [], _ => true
  | _ :: _, [] => false
  | a :: as, b :: bs =>
    if a.toNat = b.toNat then charListLe as bs else decide (a.toNat < b.toNat)

/-- First component of the Python sort key `(not is_dir, name.lower())`:
directories rank 0, files rank 1. -/
def itemRank (it : RemoteItem) : Nat := if it.isDir then 0 else 1

/-- Second component of the sort key: the lowercased name. -/
def lowerKey (it : RemoteItem) : List Char := it.name.data.map Char.toLower

/-- The sort key ordering: compare ranks first, then the lowercased names. -/
def itemLe (a b : RemoteItem) : Bool :=
  if itemRank a = itemRank b then charListLe (lowerKey a) (lowerKey b)
  else decide (itemRank a < itemRank b)

/-- `itemLe` as a relation. -/
def ItemLeRel (a b : RemoteItem) : Prop := itemLe a b = true

/-- Decidability of the sort-key relation. -/
def itemLeDec : DecidableRel ItemLeRel := fun a b => instDecidableEqBool (itemLe a b) true

/-- The source sorts with Python's stable `list.sort` under the key above; any
stable sort with respect to the same total preorder produces the same list,
so the model uses stable insertion sort, which the kernel can evaluate. -/
def sortItems (xs : List RemoteItem) : List RemoteItem :=
  @List.insertionSort _ ItemLeRel itemLeDec xs

/-! ### The listing operation, src/HyperFTP.py:772-808

Inputs: the MLSD reply (`Except.error` when the MLSD command itself is
rejected, otherwise the name/facts pairs) and the LIST reply (`Except.error`
when the `dir` command fails).  The MLSD loop is attempted first; any raise
inside it falls back to LIST, keeping the items already appended; a raise in
the LIST loop propagates to the outer handler and fails the whole listing. -/

def refreshListing (mlsd : Except Unit (List (String × List (String × String))))
    (dirLines : Except Unit (List String)) : Except Unit (List RemoteItem) :=
  match mlsd with
  | .error _ =>
    match dirLines with
    | .error _ => .error ()
    | .ok lines =>
      match legacyFold lines with
      | .error _ => .error ()
      | .ok l => .ok (sortItems l)
  | .ok entries =>
    let r := mlsdFold entries
    if r.2 then
      match dirLines with
      | .error _ => .error ()
      | .ok lines =>
        match legacyFold lines with
        | .error _ => .error ()
        | .ok l => .ok (sortItems (r.1 ++ l))
    else .ok (sortItems r.1)

/-! ### Recursive folder upload, src/HyperFTP.py:1296-1326

The local tree handed to `_upload_folder` is modelled with explicit outcome
flags for every fallible remote operation touched by the control flow:
`mkdOk` for `mkd` (whose failure is swallowed by an inner `try`), `cwdOk` for
the relative `cwd(remote_name)`, `listOk` for `os.listdir(local_path)`, and
`restoreOk` for the final absolute `cwd(original_remote)`.  A failing flag
raises at that point; the body-wide `except` catches it, so the function
itself never raises.  File children are dispatched to worker threads whose
outcome `taskOk` is reported asynchronously and never raises in this control
flow; directory children recurse, and the recursive call likewise catches its
own exceptions.  The state threaded through is the server's working
directory; `crp` is the session's `current_remote_path` field, which
`_upload_folder` reads (`original_remote`) but never writes. -/

inductive LocalNode where
  | file (name : String) (taskOk : Bool)
  | dir (name : String) (mkdOk cwdOk listOk restoreOk : Bool) (children : List LocalNode)

mutual

/-- Run `_upload_folder` on one directory node.  Returns the server working
directory on return together with the local paths of all dispatched file
tasks.  The `mkdOk` flag is unused because the source swallows `mkd` failures
before saving `original_remote`. -/
def uploadFolder (crp cwd0 localPath : String) : LocalNode → String × List String
  | .file _ _ => (cwd0, [])
  | .dir dname _mkdOk cwdOk listOk restoreOk children =>
    if cwdOk then
      if listOk then
        let r := uploadChildren crp (cwd0 ++ "/" ++ dname) localPath children
        if restoreOk then (crp, r.2) else (r.1, r.2)
      else (cwd0 ++ "/" ++ dname, [])
    else (cwd0, [])

/-- The `for item in os.listdir(local_path)` loop: files dispatch a transfer
task without touching the working directory, directories recurse. -/
def uploadChildren (crp cwd0 localPath : String) : List LocalNode → String × List String
  | [] => (cwd0, [])
  | n :: rest =>
    match n with
    | .file fname _ =>
      let r := uploadChildren crp cwd0 localPath rest
      (r.1, (localPath ++ "/" ++ fname) :: r.2)
    | .dir dname _ _ _ _ _ =>
      let rd := uploadFolder crp cwd0 (localPath ++ "/" ++ dname) n
      let r := uploadChildren crp rd.1 localPath rest
      (r.1, rd.2 ++ r.2)

end

/-! ### Transfer progress accounting, src/HyperFTP.py:854-866 and 920-936

Both transfer callbacks accumulate `len(data)` into a cumulative counter on
every chunk delivered by the streaming primitive.  A chunk is modelled as its
byte content (a list of byte values); the trace lists the counter value seen
by the callback at each chunk. -/

def progressTraceAux (acc : Nat) : List (List Nat) → List Nat
  | [] => []
  | c :: cs => (acc + c.length) :: progressTraceAux (acc + c.length) cs

/-- The sequence of cumulative byte counts observed by the progress callback
over a complete transfer of the given chunks. -/
def progressTrace (chunks : List (List Nat)) : List Nat :=
  progressTraceAux 0 chunks

/-! ### Single-file download, src/HyperFTP.py:907-945 -/

/-- Observable outcome of the download thread's success path: the cumulative
byte counts at which a progress-percentage update was emitted, the bytes
written to the local file, and whether the completion handler was reached. -/
structure DlOutcome where
  events : List Nat
  written : List Nat
  completed : Bool
  deriving DecidableEq, Repr

/-- The `write_callback` loop: each chunk bumps the counter, emits a
percentage update only when `file_size > 0`, then writes the chunk. -/
def dlRun (fileSize acc : Nat) : List (List Nat) → List Nat × List Nat
  | [] => ([], [])
  | c :: cs =>
    let acc2 := acc + c.length
    let r := dlRun fileSize acc2 cs
    (if 0 < fileSize then acc2 :: r.1 else r.1, c ++ r.2)

/-- `_download_single_file`'s thread on its success path: the pre-transfer
`ftp.size` query result (`none` when the query raised, in which case
`file_size = 0`), then the streaming loop, then the completion handler. -/
def downloadSingleFile (sizeQuery : Option Nat) (chunks : List (List Nat)) : DlOutcome :=
  let fileSize := match sizeQuery with | some n => n | none => 0
  let r := dlRun fileSize 0 chunks
  { events := r.1, written := r.2, completed := true }

/-! ### Session disconnect, src/HyperFTP.py:711-726 -/

/-- The session state touched by `disconnect_ftp`: the connection handle and
the connected flag. -/
structure SessionState where
  ftp : Option Unit
  connected : Bool
  deriving DecidableEq, Repr

/-- `disconnect_ftp`: when a handle exists, `quit()` is attempted and any
failure is swallowed (`quitOk` is the attempt's outcome, which the result
never depends on); the handle is then cleared and the connected flag reset.
The function is total: no path re-raises to the caller. -/
def disconnectFtp (_quitOk : Bool) (s : SessionState) : SessionState :=
  match s.ftp with
  | some _ => { ftp := none, connected := false }
  | none => { ftp := none, connected := false }

/-! ### Connect credentials, src/HyperFTP.py:643-659 -/

/-- `connect_ftp`'s credential resolution: the host is stripped and must be
non-empty; with the anonymous box checked the credentials are forced to the
fixed convention pair; otherwise the stripped username must be non-empty and
is used with the password as typed. -/
def resolveLogin (host : String) (anonymous : Bool) (username password : String) :
    Option (String × String) :=
  if pyStrip host = "" then none
  else if anonymous then some ("anonymous", "anonymous@")
  else if pyStrip username = "" then none
  else some (pyStrip username, password)

/-! ### Helper lemmas on the sort-key ordering -/

theorem charListLe_total : ∀ as bs : List Char, charListLe as bs = true ∨ charListLe bs as = true := by
  intro as
  induction as with
  | nil => intro bs; left; rfl
  | cons a as ih =>
    intro bs
    cases bs with
    | nil => right; rfl
    | cons b bs =>
      simp only [charListLe]
      by_cases h : a.toNat = b.toNat
      · rw [if_pos h, if_pos h.symm]; exact ih bs
      · rw [if_neg h, if_neg (fun hh => h hh.symm)]
        simp only [decide_eq_true_eq]
        omega

theorem charListLe_trans :
    ∀ as bs cs : List Char, charListLe as bs = true → charListLe bs cs = true →
      charListLe as cs = true := by
  intro as
  induction as with
  | nil => intro bs cs _ _; rfl
  | cons a as ih =>
    intro bs cs h1 h2
    cases bs with
    | nil => simp [charListLe] at h1
    | cons b bs =>
      cases cs with
      | nil => simp [charListLe] at h2
      | cons c cs =>
        simp only [charListLe] at h1 h2 ⊢
        split_ifs at h1 h2 ⊢ with hab hbc hac <;>
          simp only [decide_eq_true_eq] at * <;>
          first
            | exact ih bs cs h1 h2
            | omega

theorem itemLe_total : ∀ a b : RemoteItem, ItemLeRel a b ∨ ItemLeRel b a := by
  intro a b
  unfold ItemLeRel itemLe
  rcases eq_or_ne (itemRank a) (itemRank b) with h | h
  · rw [if_pos h, if_pos h.symm]; exact charListLe_total _ _
  · rw [if_neg h, if_neg h.symm]
    simp only [decide_eq_true_eq]
    omega

theorem itemLe_trans : ∀ a b c : RemoteItem, ItemLeRel a b → ItemLeRel b c → ItemLeRel a c := by
  intro a b c h1 h2
  unfold ItemLeRel itemLe at *
  split_ifs at h1 h2 ⊢ with hab hbc hac <;>
    simp only [decide_eq_true_eq] at * <;>
    first
      | exact charListLe_trans _ _ _ h1 h2
      | omega

theorem sortItems_sorted (xs : List RemoteItem) : List.Sorted ItemLeRel (sortItems xs) :=
  @List.sorted_insertionSort _ ItemLeRel itemLeDec ⟨itemLe_total⟩ ⟨itemLe_trans⟩ xs

theorem sortItems_idem (xs : List RemoteItem) : sortItems (sortItems xs) = sortItems xs :=
  @List.Sorted.insertionSort_eq _ ItemLeRel itemLeDec _ (sortItems_sorted xs)

/-- Every successful listing result is the sorted image of some parsed item
list: each `ok` branch of `refreshListing` applies `sortItems` last. -/
theorem refreshListing_ok (m : Except Unit (List (String × List (String × String))))
    (d : Except Unit (List String)) (items : List RemoteItem)
    (h : refreshListing m d = .ok items) : ∃ xs, items = sortItems xs := by
  cases m with
  | error e =>
    cases d with
    | error _ => simp [refreshListing] at h
    | ok lines =>
      cases hl : legacyFold lines with
      | error _ => simp [refreshListing, hl] at h
      | ok l => simp [refreshListing, hl] at h; exact ⟨l, h.symm⟩
  | ok entries =>
    cases hb : (mlsdFold entries).2 with
    | false =>
      simp [refreshListing, hb] at h
      exact ⟨(mlsdFold entries).1, h.symm⟩
    | true =>
      cases d with
      | error _ => simp [refreshListing, hb] at h
      | ok lines =>
        cases hl : legacyFold lines with
        | error _ => simp [refreshListing, hb, hl] at h
        | ok l =>
          simp [refreshListing, hb, hl] at h
          exact ⟨(mlsdFold entries).1 ++ l, h.symm⟩

/-- An MLSD entry that produces an item gives it exactly the entry's name. -/
theorem mlsdEntryItem_name (ename : String) (facts : List (String × String))
    (it : RemoteItem) (h : mlsdEntryItem ename facts = some it) : it.name = ename := by
  by_cases hd : factGet facts "type" = some "dir"
  · simp only [mlsdEntryItem, if_pos hd, Option.some.injEq] at h
    rw [← h]
  · cases hs : factGet facts "size" with
    | none =>
      simp only [mlsdEntryItem, if_neg hd, hs, Option.some.injEq] at h
      rw [← h]
    | some s =>
      cases hn : pyInt? s with
      | none => simp only [mlsdEntryItem, if_neg hd, hs, hn] at h; cases h
      | some n =>
        simp only [mlsdEntryItem, if_neg hd, hs, hn, Option.some.injEq] at h
        rw [← h]

/-- The sort-key ordering unfolded into the contract's shape: a directory
before a file, or two entries of the same kind in case-insensitive
lexicographic name order. -/
theorem itemLe_shape (a b : RemoteItem) (h : ItemLeRel a b) :
    (a.isDir = true ∧ b.isDir = false) ∨
      (a.isDir = b.isDir ∧ charListLe (lowerKey a) (lowerKey b) = true) := by
  unfold ItemLeRel itemLe itemRank at h
  cases ha : a.isDir <;> cases hb : b.isDir <;> rw [ha, hb] at h <;> simp at h <;> simp [ha, hb, h]

/-! ### Helper lemmas on the transfer loops -/

theorem progressTraceAux_chain :
    ∀ (cs : List (List Nat)) (acc : Nat), List.Chain' (· ≤ ·) (progressTraceAux acc cs)
  | [], _ => List.chain'_nil
  | [_], _ => List.chain'_singleton _
  | c :: d :: ds, acc => by
    have ih := progressTraceAux_chain (d :: ds) (acc + c.length)
    simp only [progressTraceAux] at ih ⊢
    exact List.Chain'.cons (by omega) ih

theorem progressTraceAux_last :
    ∀ (cs : List (List Nat)) (acc : Nat),
      (progressTraceAux acc cs).getLastD acc = acc + (cs.map List.length).sum
  | [], acc => by simp [progressTraceAux]
  | c :: cs, acc => by
    have ih := progressTraceAux_last cs (acc + c.length)
    simp only [progressTraceAux, List.getLastD_cons, List.map_cons, List.sum_cons, ih]
    omega

theorem dlRun_zero_size : ∀ (acc : Nat) (cs : List (List Nat)), dlRun 0 acc cs = ([], cs.flatten) := by
  intro acc cs
  induction cs generalizing acc with
  | nil => rfl
  | cons c cs ih => simp [dlRun, ih]

/-! ### Claim theorems -/

/-- C1: after a recursive folder upload whose own change-directory,
enumeration and restore navigation succeed, the remote working directory
equals the session's `current_remote_path` from before the upload, for every
tree of children — including children whose dispatched file tasks fail and
nested recursive uploads that fail at any of their own steps — because the
restore is an explicit re-navigation to the saved absolute path and every
nested failure is caught by the nested call's own handler. -/
theorem uploadFolder_restores_cwd (crp localPath dname : String) (mkdOk : Bool)
    (children : List LocalNode) :
    (uploadFolder crp crp localPath (.dir dname mkdOk true true true children)).1 = crp := by
  simp [uploadFolder]

/-- C2 counterexample: the legacy (LIST) parser produces a standalone `.`
entry — the listing operation returns it — refuting the claim that both
parsers filter out `.` and `..`. -/
theorem legacyListing_produces_dot_entry :
    refreshListing (.error ()) (.ok ["drwxr-xr-x 2 user group 4096 Jan 1 12:00 ."]) =
      .ok [{ isDir := true, name := ".", size := none, modified := "Jan 1 12:00" }] := by
  decide

/-- C2 (amended): the structured (MLSD) parser filters out entries named `.`
or `..` during parsing — no item it produces carries either standalone name.
The legacy (LIST) parser performs no such filtering, as the counterexample
shows. -/
theorem mlsdFold_filters_dot_entries (entries : List (String × List (String × String))) :
    ∀ it ∈ (mlsdFold entries).1, it.name ≠ "." ∧ it.name ≠ ".." := by
  induction entries with
  | nil => intro it hit; simp [mlsdFold] at hit
  | cons e rest ih =>
    obtain ⟨ename, facts⟩ := e
    intro it hit
    simp only [mlsdFold] at hit
    by_cases hd : ename = "." ∨ ename = ".."
    · rw [if_pos hd] at hit; exact ih it hit
    · rw [if_neg hd] at hit
      cases hm : mlsdEntryItem ename facts with
      | none => rw [hm] at hit; simp at hit
      | some it2 =>
        rw [hm] at hit
        rcases List.mem_cons.mp hit with rfl | hmem
        · rw [mlsdEntryItem_name ename facts it hm]
          push_neg at hd
          exact hd
        · exact ih it hmem

/-- C2 witness: a concrete MLSD reply containing a `cdir` entry named `.`,
whose produced `readme.txt` item indeed has neither forbidden name. -/
theorem mlsdFold_filters_dot_entries_witness :
    ({ isDir := false, name := "readme.txt", size := some 1200, modified := "" } :
        RemoteItem).name ≠ "." ∧
      ({ isDir := false, name := "readme.txt", size := some 1200, modified := "" } :
        RemoteItem).name ≠ ".." :=
  mlsdFold_filters_dot_entries
    [("readme.txt", [("type", "file"), ("size", "1200")]), (".", [("type", "cdir")])]
    _ (by decide)

/-- C3 counterexample: a single malformed nine-token LIST line with a
non-numeric size field aborts the whole listing, losing the entry of the
well-formed line that follows it — a malformed line can abort parsing. -/
theorem legacyFold_abort_counterexample :
    listLine "drwxr-xr-x 2 user group 4096 Jan 1 12:00 docs" =
        .parsed { isDir := true, name := "docs", size := none, modified := "Jan 1 12:00" } ∧
      legacyFold ["-rw-r--r-- 1 user group xyz Jan 1 12:00 notes.txt",
        "drwxr-xr-x 2 user group 4096 Jan 1 12:00 docs"] = .error () := by
  decide

/-- C3 (amended): lines with fewer than nine tokens are skipped without
aborting, and as long as no line aborts — that is, every line with at least
nine tokens that is not a directory line has a parseable integer size
token — the listing result contains exactly the entries of the well-formed
lines in order.  A nine-token non-directory line with an unparseable size
token aborts the entire listing instead, as the counterexample shows. -/
theorem legacyFold_skips_short_lines (lines : List String)
    (h : ∀ l ∈ lines, listLine l ≠ .aborted) :
    legacyFold lines = .ok (lines.filterMap legacyLineItem?) := by
  induction lines with
  | nil => rfl
  | cons l ls ih =>
    have hl := h l (List.mem_cons_self l ls)
    have hrest := ih (fun x hx => h x (List.mem_cons_of_mem l hx))
    cases hc : listLine l with
    | skipped => simp [legacyFold, hc, List.filterMap_cons, legacyLineItem?, hrest]
    | aborted => exact absurd hc hl
    | parsed it => simp [legacyFold, hc, List.filterMap_cons, legacyLineItem?, hrest]

/-- C3 witness: a two-token header line (as `ls -l` emits) is skipped and the
well-formed line's entry is the whole result. -/
theorem legacyFold_skips_short_lines_witness :
    legacyFold ["total 4", "drwxr-xr-x 2 user group 4096 Jan 1 12:00 docs"] =
      .ok [{ isDir := true, name := "docs", size := none, modified := "Jan 1 12:00" }] := by
  rw [legacyFold_skips_short_lines _ (by decide)]
  decide

/-- C4 counterexample: when the structured attempt fails midway (here on a
non-numeric size fact of the second entry) the entry it already produced
(`a.txt`) is retained and combined with the legacy entries, so the returned
entries are not exactly those re-parsed with the legacy grammar. -/
theorem refreshListing_partial_mlsd_counterexample :
    refreshListing
        (.ok [("a.txt", [("type", "file"), ("size", "10")]),
          ("b.txt", [("type", "file"), ("size", "xyz")])])
        (.ok ["drwxr-xr-x 2 user group 4096 Jan 1 12:00 docs"]) =
      .ok [{ isDir := true, name := "docs", size := none, modified := "Jan 1 12:00" },
        { isDir := false, name := "a.txt", size := some 10, modified := "" }] ∧
      legacyFold ["drwxr-xr-x 2 user group 4096 Jan 1 12:00 docs"] =
        .ok [{ isDir := true, name := "docs", size := none, modified := "Jan 1 12:00" }] ∧
      sortItems [{ isDir := true, name := "docs", size := none, modified := "Jan 1 12:00" }] ≠
        [{ isDir := true, name := "docs", size := none, modified := "Jan 1 12:00" },
          { isDir := false, name := "a.txt", size := some 10, modified := "" }] := by
  decide

/-- C4 (amended): the structured listing command is attempted first and on
its failure the operation falls back to the legacy listing command.  When
the structured attempt fails before yielding any entry (the command itself
is rejected), the returned entries are exactly those re-parsed with the
legacy grammar; when it fails after yielding entries, the already-parsed
structured entries are retained and combined with the legacy-parsed
entries. -/
theorem refreshListing_fallback :
    (∀ lines l, legacyFold lines = .ok l →
        refreshListing (.error ()) (.ok lines) = .ok (sortItems l)) ∧
      (∀ entries lines l, (mlsdFold entries).2 = true → legacyFold lines = .ok l →
        refreshListing (.ok entries) (.ok lines) =
          .ok (sortItems ((mlsdFold entries).1 ++ l))) := by
  constructor
  · intro lines l hl
    simp [refreshListing, hl]
  · intro entries lines l hb hl
    simp [refreshListing, hb, hl]

/-- C4 witness: the fallback equation evaluated on the counterexample's
concrete replies. -/
theorem refreshListing_fallback_witness :
    refreshListing
        (.ok [("a.txt", [("type", "file"), ("size", "10")]),
          ("b.txt", [("type", "file"), ("size", "xyz")])])
        (.ok ["drwxr-xr-x 2 user group 4096 Jan 1 12:00 docs"]) =
      .ok (sortItems
        ((mlsdFold [("a.txt", [("type", "file"), ("size", "10")]),
          ("b.txt", [("type", "file"), ("size", "xyz")])]).1 ++
          [{ isDir := true, name := "docs", size := none, modified := "Jan 1 12:00" }])) :=
  refreshListing_fallback.2 _ _ _ (by decide) (by decide)

/-- C5: every successful listing, from either parser path, is sorted with
directories before files and, within entries of the same kind,
case-insensitive lexicographic order of names; the pipeline is a pure
function of the replies, hence deterministic. -/
theorem refreshListing_sorted (m : Except Unit (List (String × List (String × String))))
    (d : Except Unit (List String)) (items : List RemoteItem)
    (h : refreshListing m d = .ok items) :
    items.Pairwise (fun a b =>
      (a.isDir = true ∧ b.isDir = false) ∨
        (a.isDir = b.isDir ∧ charListLe (lowerKey a) (lowerKey b) = true)) := by
  obtain ⟨xs, rfl⟩ := refreshListing_ok m d items h
  exact (sortItems_sorted xs).imp (fun hab => itemLe_shape _ _ hab)

/-- C5 witness: the spec's scenario 2 — `docs` (dir) and `readme.txt` (file)
arrive in reverse order and come out sorted. -/
theorem refreshListing_sorted_witness :
    ([{ isDir := true, name := "docs", size := none, modified := "" },
      { isDir := false, name := "readme.txt", size := some 1200, modified := "" }] :
        List RemoteItem).Pairwise (fun a b =>
      (a.isDir = true ∧ b.isDir = false) ∨
        (a.isDir = b.isDir ∧ charListLe (lowerKey a) (lowerKey b) = true)) :=
  refreshListing_sorted
    (.ok [("readme.txt", [("type", "file"), ("size", "1200")]), ("docs", [("type", "dir")])])
    (.error ()) _ (by decide)

/-- C6: over any complete chunk stream, the cumulative byte counts seen by
the transfer progress callback — upload and download share the same
accumulation of `len(data)` — form a non-decreasing sequence whose final
value is the total number of bytes moved. -/
theorem progressTrace_monotone_total (chunks : List (List Nat)) :
    List.Chain' (· ≤ ·) (progressTrace chunks) ∧
      (progressTrace chunks).getLastD 0 = (chunks.map List.length).sum := by
  refine ⟨progressTraceAux_chain chunks 0, ?_⟩
  simpa using progressTraceAux_last chunks 0

/-- C7: with the anonymous box checked and a non-empty host, the resolved
credentials are always the fixed convention pair `anonymous` /
`anonymous@`, whatever username and password the caller supplied. -/
theorem anonymous_login_fixed (host u p : String) (h : pyStrip host ≠ "") :
    resolveLogin host true u p = some ("anonymous", "anonymous@") := by
  simp [resolveLogin, h]

/-- C7 witness: concrete non-empty host with ignored typed credentials. -/
theorem anonymous_login_fixed_witness :
    resolveLogin "ftp.example.com" true "alice" "hunter2" = some ("anonymous", "anonymous@") :=
  anonymous_login_fixed "ftp.example.com" "alice" "hunter2" (by decide)

/-- C8: the parse-and-sort pipeline is idempotent — every successful listing
result, in either grammar, is a fixed point of the sorting stage, so
applying the pipeline again to an already-sorted listing yields the same
order as the first application. -/
theorem refreshListing_idempotent (m : Except Unit (List (String × List (String × String))))
    (d : Except Unit (List String)) (items : List RemoteItem)
    (h : refreshListing m d = .ok items) : sortItems items = items := by
  obtain ⟨xs, rfl⟩ := refreshListing_ok m d items h
  exact sortItems_idem xs

/-- C8 witness: a legacy listing's sorted output re-sorts to itself. -/
theorem refreshListing_idempotent_witness :
    sortItems [{ isDir := true, name := "docs", size := none, modified := "Jan 1 12:00" },
        { isDir := false, name := "readme.txt", size := some 1200, modified := "Jan 1 12:00" }] =
      [{ isDir := true, name := "docs", size := none, modified := "Jan 1 12:00" },
        { isDir := false, name := "readme.txt", size := some 1200, modified := "Jan 1 12:00" }] :=
  refreshListing_idempotent (.error ())
    (.ok ["-rw-r--r-- 1 user group 1200 Jan 1 12:00 readme.txt",
      "drwxr-xr-x 2 user group 4096 Jan 1 12:00 docs"])
    _ (by decide)

/-- C9: `disconnect_ftp` never raises — a failing `quit` is swallowed — and
always ends in the terminal disconnected state with the handle cleared and
the connected flag false; invoking it again from that state is safe and
leaves the state unchanged. -/
theorem disconnectFtp_terminal (quitOk : Bool) (s : SessionState) :
    disconnectFtp quitOk s = { ftp := none, connected := false } ∧
      disconnectFtp quitOk (disconnectFtp quitOk s) = disconnectFtp quitOk s := by
  obtain ⟨f, c⟩ := s
  cases f <;> simp [disconnectFtp]

/-- C10: when the pre-transfer size query fails, the download proceeds with
the total size treated as zero: no progress-percentage updates are emitted,
every received chunk is still written to the local file, and the task still
reaches completion. -/
theorem downloadSingleFile_unknown_size (chunks : List (List Nat)) :
    downloadSingleFile none chunks =
      { events := [], written := chunks.flatten, completed := true } := by
  simp [downloadSingleFile, dlRun_zero_size]

end HyperFTP
